import Mathlib

/-!
Verification development for the blinx/promap maximum-likelihood
parameter-estimation engine.  The Python sources are shallowly embedded:
pure numeric code becomes functions over `ℚ`, NumPy/JAX floating-point
`NaN`/`inf` behaviour is made explicit through a small extended-value type,
and the batched refinement loop is modelled with the per-iteration
optimizer outputs supplied as an oracle function (the optimizer itself
lives outside the embedded modules).

All definitions come first, followed by the theorems.
-/

namespace Blinx

/-! ## Parameter ranges (`blinx/parameter_ranges.py`) -/

/-- Embedding of `jnp.linspace(start, stop, num)` over `ℚ`:
`num = 0` gives the empty grid, `num = 1` gives `[start]`, and otherwise
`num` evenly spaced points from `start` to `stop` inclusive. -/
def linspace (a b : ℚ) (n : ℕ) : List ℚ :=
  if n = 0 then []
  else if n = 1 then [a]
  else (List.range n).map (fun (i : ℕ) => a + (b - a) * (i : ℚ) / ((n : ℚ) - 1))

/-- Embedding of `parameter_ranges.Range`: a start, a stop and a number of
grid values (`step`).  The Python `__init__` stores the three fields
unchanged and performs no validation. -/
structure Range where
  start : ℚ
  stop : ℚ
  step : ℤ

/-- Embedding of `Range.__init__`: the constructor body only assigns the
three fields, so it cannot raise; the embedded constructor therefore always
returns `.ok`. -/
def Range.make (start stop : ℚ) (step : ℤ) : Except String Range :=
  .ok ⟨start, stop, step⟩

/-- Embedding of `Range.to_tensor`, i.e. `jnp.linspace(start, stop, step)`.
`jnp.linspace` raises a `ValueError` for a negative number of samples and
otherwise succeeds (also for `num = 0`, giving an empty grid). -/
def Range.to_tensor (r : Range) : Except String (List ℚ) :=
  if r.step < 0 then .error "ValueError: number of samples must be nonnegative"
  else .ok (linspace r.start r.stop r.step.toNat)

/-- Embedding of `blinx.ParameterRanges`: seven ranges, one per model
parameter.  (The `__init__` also replaces a `None` start/stop of the
`p_on`/`p_off` ranges by defaults; no embedded claim passes `None`, so
starts and stops are plain rationals here.) -/
structure ParameterRanges where
  r_e_range : Range
  r_bg_range : Range
  mu_ro_range : Range
  sigma_ro_range : Range
  gain_range : Range
  p_on_range : Range
  p_off_range : Range

/-- Embedding of `ParameterRanges.__init__`: each `(min, max)` pair and
step count is stored in a `Range`; no validation is performed and nothing
can raise. -/
def ParameterRanges.make
    (r_e r_bg mu_ro sigma_ro gain p_on p_off : ℚ × ℚ)
    (r_e_step r_bg_step mu_ro_step sigma_ro_step gain_step p_on_step p_off_step : ℤ) :
    Except String ParameterRanges :=
  .ok
    { r_e_range := ⟨r_e.1, r_e.2, r_e_step⟩
      r_bg_range := ⟨r_bg.1, r_bg.2, r_bg_step⟩
      mu_ro_range := ⟨mu_ro.1, mu_ro.2, mu_ro_step⟩
      sigma_ro_range := ⟨sigma_ro.1, sigma_ro.2, sigma_ro_step⟩
      gain_range := ⟨gain.1, gain.2, gain_step⟩
      p_on_range := ⟨p_on.1, p_on.2, p_on_step⟩
      p_off_range := ⟨p_off.1, p_off.2, p_off_step⟩ }

/-- The default argument values of `ParameterRanges.__init__`. -/
def defaultParameterRanges : ParameterRanges where
  r_e_range := ⟨100, 30000, 100⟩
  r_bg_range := ⟨5000, 5000, 1⟩
  mu_ro_range := ⟨1000, 3000, 1⟩
  sigma_ro_range := ⟨1/10, 1/10, 1⟩
  gain_range := ⟨1, 3, 1⟩
  p_on_range := ⟨1/10000, 1, 20⟩
  p_off_range := ⟨1/10000, 1, 20⟩

/-- Embedding of `ParameterRanges.num_values`: the tuple of step counts,
in the order the ranges are laid out. -/
def ParameterRanges.num_values (pr : ParameterRanges) : List ℤ :=
  [pr.r_e_range.step, pr.r_bg_range.step, pr.mu_ro_range.step,
   pr.sigma_ro_range.step, pr.gain_range.step, pr.p_on_range.step,
   pr.p_off_range.step]

/-- The ranges of a `ParameterRanges`, in grid order. -/
def ParameterRanges.ranges (pr : ParameterRanges) : List Range :=
  [pr.r_e_range, pr.r_bg_range, pr.mu_ro_range,
   pr.sigma_ro_range, pr.gain_range, pr.p_on_range, pr.p_off_range]

/-- The grid shape used by `get_initial_parameter_guesses` when reshaping
the flattened parameter grid: the step counts as natural numbers. -/
def ParameterRanges.shape (pr : ParameterRanges) : List ℕ :=
  pr.num_values.map Int.toNat

/-! ## Hyper-parameters (structure fields as used by `blinx/estimate.py`)

Modelled from the spec: `blinx/hyper_parameters.py` is not in `src/`; the
fields below are the ones `estimate.py` reads, with the meanings given in
spec section 6 (`min_y`, `max_x` auto-derived if unset, `num_guesses`,
`epoch_length`, `is_done_window`, `is_done_limit`). -/

structure HyperParameters where
  min_y : ℕ
  max_x : Option ℚ
  num_guesses : ℕ
  epoch_length : ℕ
  is_done_window : ℕ
  is_done_limit : ℚ

/-! ## Convergence detector (`blinx/estimate.py`, `is_done`) -/

/-- Extended value: a finite rational, positive infinity, or NaN.  This
makes the floating-point outcomes of the `mean_delta / mean_values`
division in `is_done` explicit (in `is_done` both operands are absolute
values, so a negative infinity never arises). -/
inductive FV where
  | fin (q : ℚ)
  | inf
  | nan
deriving DecidableEq

/-- Absolute value on `ℚ`, written so that it evaluates by `simp` and
`norm_num`. -/
def qabs (q : ℚ) : ℚ := if q < 0 then -q else q

/-- `jnp.mean` over a flattened collection of values: NaN on an empty
collection, otherwise the exact rational mean. -/
def meanFV (l : List ℚ) : FV :=
  if l.length = 0 then .nan else .fin (l.sum / l.length)

/-- `jnp.abs` on an extended value. -/
def absFV : FV → FV
  | .fin q => .fin (qabs q)
  | .inf => .inf
  | .nan => .nan

/-- Floating-point division on extended values, restricted to the
nonnegative operands produced by `absFV`: `0 / 0` is NaN, `x / 0` with
`x > 0` is infinity, anything involving NaN is NaN. -/
def divFV : FV → FV → FV
  | .nan, _ => .nan
  | _, .nan => .nan
  | .inf, .inf => .nan
  | .inf, .fin _ => .inf
  | .fin _, .inf => .fin 0
  | .fin a, .fin b =>
      if b ≠ 0 then .fin (a / b) else if a = 0 then .nan else .inf

/-- Floating-point comparison `x < limit`: false when `x` is NaN or
positive infinity. -/
def ltFV : FV → ℚ → Bool
  | .fin q, limit => decide (q < limit)
  | .inf, _ => false
  | .nan, _ => false

/-- `jnp.isnan`. -/
def isnanFV : FV → Bool
  | .nan => true
  | _ => false

/-- One iteration's batch of log-likelihoods: one row per trace, one entry
per parameter guess (shape `(n, g)`). -/
abbrev Batch := List (List ℚ)

/-- Elementwise differences between two consecutive batches, flattened —
the contribution of one adjacent pair to `jnp.diff(history, axis=0)`. -/
def batchDiff (a b : Batch) : List ℚ :=
  (a.flatten.zip b.flatten).map (fun p => p.2 - p.1)

/-- All entries of `jnp.diff(history, axis=0)`: elementwise differences of
each adjacent pair of batches in the history. -/
def historyDiffs : List Batch → List ℚ
  | [] => []
  | [_] => []
  | a :: b :: rest => batchDiff a b ++ historyDiffs (b :: rest)

/-- The `percent_improve` ratio computed by `is_done`:
`|mean(history)|` and `|mean(diff(history, axis=0))|` are scalars over the
whole stacked history, and their quotient follows floating-point
semantics (`0 / 0 = NaN`). -/
def percentImprove (history : List Batch) : FV :=
  let mean_values := absFV (meanFV (history.flatMap List.flatten))
  let mean_delta := absFV (meanFV (historyDiffs history))
  divFV mean_delta mean_values

/-- Embedding of `is_done(log_likelihoods_history, hyper_parameters)`:
with fewer than `is_done_window` recorded batches the answer is `false`;
otherwise the scalar fractional-improvement ratio is compared against
`is_done_limit`, and a NaN ratio also counts as converged. -/
def is_done (window : ℕ) (limit : ℚ) (history : List Batch) : Bool :=
  if history.length < window then false
  else
    let percent_improve := percentImprove history
    let done_improve := ltFV percent_improve limit
    let is_nan := isnanFV percent_improve
    done_improve || is_nan

/-! ## The refinement loop of `estimate_parameters` (`blinx/estimate.py`)

The per-iteration optimizer outputs are supplied as oracle functions
`lls : ℕ → Batch` (the batch of log-likelihoods produced by the `i`-th
call of `optimizer_step`) and `ps : ℕ → List (List α)` (the parameters
after that call): `optimizer_step` is built from `blinx/optimizer.py`,
which is outside the embedded sources.  Modelled from the spec: each
iteration computes value-and-gradient of the likelihood engine, so the
reported values are the untransformed (positive-is-better)
log-likelihoods. -/

/-- The contents of the `log_likelihoods_history` deque (`maxlen =
is_done_window`) after loop iteration `i`: the last `window` of the
batches produced so far. -/
def histAt (lls : ℕ → Batch) (window i : ℕ) : List Batch :=
  let full := (List.range (i + 1)).map lls
  full.drop (full.length - window)

/-- The number of loop iterations `estimate_parameters` executes: the
`for i in range(epoch_length)` loop breaks after the first iteration whose
history satisfies `is_done`, and otherwise runs `epoch_length` times. -/
def itersRun (hp : HyperParameters) (lls : ℕ → Batch) : ℕ :=
  match (List.range hp.epoch_length).find?
      (fun i => is_done hp.is_done_window hp.is_done_limit
        (histAt lls hp.is_done_window i)) with
  | some i => i + 1
  | none => hp.epoch_length

/-- Whether the convergence detector fired during the run (the loop
early-stopped) — this information exists inside `estimate_parameters` but
is not part of its return value. -/
def earlyStop (hp : HyperParameters) (lls : ℕ → Batch) : Bool :=
  (List.range hp.epoch_length).any
    (fun i => is_done hp.is_done_window hp.is_done_limit
      (histAt lls hp.is_done_window i))

/-- Embedding of `jnp.argmin` on one row: the index of the first minimal
element (0 on an empty row, which `jnp.argmin` rejects). -/
def argmin (l : List ℚ) : ℕ :=
  (l.enum.foldl (fun best cur => if cur.2 < best.2 then cur else best)
    (0, l.headD 0)).1

/-- Embedding of the selection after the loop in `estimate_parameters`:
`best_guesses = jnp.argmin(log_likelihoods, axis=1)`, then for each trace
`t` keep `parameters[t, best_guesses[t]]` and
`log_likelihoods[t, best_guesses[t]]`. -/
def selectBest {α : Type} [Inhabited α] (params : List (List α)) (lls : Batch) :
    List α × List ℚ :=
  let picks := (lls.zip params).map (fun rp =>
    let i := argmin rp.1
    (rp.2.getD i default, rp.1.getD i 0))
  (picks.map Prod.fst, picks.map Prod.snd)

/-- Embedding of `estimate_parameters` after the initial guesses: run the
refinement loop, then select per trace by `argmin` over the final
iteration's log-likelihoods.  With `epoch_length = 0` the loop body never
runs and the Python selection would read an unbound variable, hence
`none`. -/
def estimate_parameters {α : Type} [Inhabited α] (hp : HyperParameters)
    (lls : ℕ → Batch) (ps : ℕ → List (List α)) : Option (List α × List ℚ) :=
  let iters := itersRun hp lls
  if iters = 0 then none
  else some (selectBest (ps (iters - 1)) (lls (iters - 1)))

/-! ## The gradient-descent loop of `promap/fit.py` (`optimize_params`)

The loop's control flow depends only on the sequence of loss values the
likelihood function produces; that sequence is supplied as an oracle
`lik : ℕ → ℚ` (`lik i` is the `likelihood` value computed in the `i`-th
iteration of the `while` loop). -/

/-- The `old_likelihood` seen by iteration `i` of the `while` loop of
`optimize_params`: initially `1`, afterwards the previous iteration's
likelihood. -/
def promapOld (lik : ℕ → ℚ) (i : ℕ) : ℚ :=
  if i = 0 then 1 else lik (i - 1)

/-- Whether the `while diff > 1e-4` loop of `optimize_params` has stopped
within its first `n` iterations: it stops after iteration `i` exactly when
`|lik i - old| ≤ 1e-4`.  There is no iteration cap. -/
def promapStopsWithin (lik : ℕ → ℚ) (n : ℕ) : Bool :=
  (List.range n).any (fun i => decide (qabs (lik i - promapOld lik i) ≤ 1/10000))

/-! ## `_find_minima_3d` (`promap/fit.py`)

The 3-D likelihood surface is embedded as a total function
`v : ℕ → ℕ → ℕ → ℚ` together with its dimensions `(s0, s1, s2)`;
all accesses stay within those dimensions. -/

/-- Pairwise minimum, written so that it evaluates by kernel reduction. -/
def qmin (a b : ℚ) : ℚ := if a ≤ b then a else b

/-- Pairwise maximum (`np.maximum` semantics), written so that it
evaluates by kernel reduction. -/
def qmax (a b : ℚ) : ℚ := if a ≤ b then b else a

/-- Truncation toward zero — the effect of `.astype('int32')` on a float
(int32 overflow is not modelled; no embedded claim reaches it). -/
def truncInt (q : ℚ) : ℤ := q.num.tdiv (q.den : ℤ)

/-- The cells of `lax.dynamic_slice(vector, (i-w, j-w, k-w), (2w, 2w, 2w))`
in row-major order.  For the scanned indices (`w ≤ i`, ...) the slice is
fully in bounds, so `dynamic_slice`'s start-index clamping never acts. -/
def sliceCells (w i j k : ℕ) : List (ℕ × ℕ × ℕ) :=
  (List.range (2*w)).flatMap (fun di =>
    (List.range (2*w)).flatMap (fun dj =>
      (List.range (2*w)).map (fun dk => (i - w + di, j - w + dj, k - w + dk))))

/-- The values of the window slice. -/
def sliceVals (v : ℕ → ℕ → ℕ → ℚ) (w i j k : ℕ) : List ℚ :=
  (sliceCells w i j k).map (fun c => v c.1 c.2.1 c.2.2)

/-- `jnp.min(vector_slice)` (0 for an empty slice, which `jnp.min`
rejects; `window ≥ 1` in all uses). -/
def sliceMin (v : ℕ → ℕ → ℕ → ℚ) (w i j k : ℕ) : ℚ :=
  match sliceVals v w i j k with
  | [] => 0
  | x :: xs => xs.foldl qmin x

/-- `jnp.all(vector_slice == vector_slice[0])`: the broadcasted comparison
checks that every 2-D slab of the window equals the first slab, i.e. that
the window is constant along its first axis. -/
def allSameAxis0 (v : ℕ → ℕ → ℕ → ℚ) (w i j k : ℕ) : Bool :=
  (List.range (2*w)).all (fun di =>
    (List.range (2*w)).all (fun dj =>
      (List.range (2*w)).all (fun dk =>
        decide (v (i - w + di) (j - w + dj) (k - w + dk) =
          v (i - w) (j - w + dj) (k - w + dk)))))

/-- `scan_func` of `_find_minima_3d`: the int32-truncated window minimum,
replaced by the sentinel `0` when `all_same` holds. -/
def scan_func (v : ℕ → ℕ → ℕ → ℚ) (w i j k : ℕ) : ℚ :=
  if allSameAxis0 v w i j k then 0 else (truncInt (sliceMin v w i j k) : ℚ)

/-- The zero-padded scan result `a_pad = jnp.pad(a, window)`: the scan
value at interior scanned indices and `0` on the border.  Mirroring the
source, the second axis is bounded by `shape[0]` (`p_off_indecies` is
built from `test_vec.shape[0]`), and the third by `shape[2]`. -/
def a_pad (v : ℕ → ℕ → ℕ → ℚ) (w s0 s2 i j k : ℕ) : ℚ :=
  if w ≤ i ∧ i < s0 - w ∧ w ≤ j ∧ j < s0 - w ∧ w ≤ k ∧ k < s2 - w then
    scan_func v w i j k
  else 0

/-- Embedding of `_find_minima_3d`: the indices reported by
`jnp.where(a_pad == test_vec)`, as a list of `(i, j, k)` triples. -/
def find_minima_3d (v : ℕ → ℕ → ℕ → ℚ) (w s0 s1 s2 : ℕ) : List (ℕ × ℕ × ℕ) :=
  ((List.range s0).flatMap (fun i =>
    (List.range s1).flatMap (fun j =>
      (List.range s2).map (fun k => (i, j, k))))).filter
    (fun c => decide (a_pad v w s0 s2 c.1 c.2.1 c.2.2 = v c.1 c.2.1 c.2.2))

/-- A grid point's window is completely flat: every value in the slice
equals the point's own value. -/
def flatWindow (v : ℕ → ℕ → ℕ → ℚ) (w i j k : ℕ) : Bool :=
  (sliceVals v w i j k).all (fun q => decide (q = v i j k))

/-- The whole surface is constant. -/
def constSurface (v : ℕ → ℕ → ℕ → ℚ) (s0 s1 s2 : ℕ) : Bool :=
  (List.range s0).all (fun i =>
    (List.range s1).all (fun j =>
      (List.range s2).all (fun k => decide (v i j k = v 0 0 0))))

/-- The concrete surface for the C2 analysis: value `5` at `(2,2,2)` and
`0` everywhere else, on a `3 × 3 × 3` grid. -/
def v5 : ℕ → ℕ → ℕ → ℚ := fun i j k => if i = 2 ∧ j = 2 ∧ k = 2 then 5 else 0

/-- The concrete surface for the C2 amended-claim witness: value `9` at
`(2,2,2)` and `3` everywhere else, on a `3 × 3 × 3` grid. -/
def v3 : ℕ → ℕ → ℕ → ℚ := fun i j k => if i = 2 ∧ j = 2 ∧ k = 2 then 9 else 3

/-! ## The loop body of `optimize_params` (`promap/fit.py`)

The likelihood-and-gradient function (built from the out-of-scope
`TraceModel`/`FluorescenceModel` via `jax.value_and_grad`) and the Adam
optimizer `optax.adam(1e-3)` are supplied as oracles; `optax.sgd(mu_lr)`
is stateless with the concrete update rule `-lr * gradient`, and
`optax.apply_updates` adds an update to a parameter. -/

/-- `optax.sgd(lr).update` on a scalar gradient. -/
def sgd_update (lr g : ℚ) : ℚ := -lr * g

/-- `optax.apply_updates` on a scalar parameter. -/
def apply_update (p u : ℚ) : ℚ := p + u

/-- One iteration of the `while` loop body of `optimize_params`: compute
`(likelihood, grads)`, get the Adam updates and new Adam state, get the
SGD update for `mu` from `grads[2]`, apply the Adam updates to
`(p_on, p_off, _, sigma)` — the Adam result for `mu` is discarded — and
apply the SGD update to `mu`.  Returns the new parameters, the new Adam
state and the likelihood value. -/
def fitIteration {S : Type}
    (likelihood_grad : ℚ × ℚ × ℚ × ℚ → ℚ × (ℚ × ℚ × ℚ × ℚ))
    (adam_update : (ℚ × ℚ × ℚ × ℚ) → S → (ℚ × ℚ × ℚ × ℚ) × S)
    (mu_lr : ℚ) (p_on p_off mu sigma : ℚ) (opt_state : S) :
    (ℚ × ℚ × ℚ × ℚ) × S × ℚ :=
  let vg := likelihood_grad (p_on, p_off, mu, sigma)
  let likelihood := vg.1
  let grads := vg.2
  let us := adam_update grads opt_state
  let updates := us.1
  let mu_update := sgd_update mu_lr grads.2.2.1
  let p_on' := apply_update p_on updates.1
  let p_off' := apply_update p_off updates.2.1
  let sigma' := apply_update sigma updates.2.2.2
  let mu' := apply_update mu mu_update
  ((p_on', p_off', mu', sigma'), us.2, likelihood)

/-! ## Hyper-parameter resolution in `estimate_y` (`blinx/estimate.py`) -/

/-- `traces.max()` — NumPy's reduction by pairwise maximum; `none` for an
empty collection (where NumPy raises). -/
def tracesMax (traces : List (List ℚ)) : Option ℚ :=
  match traces.flatten with
  | [] => none
  | x :: xs => some (xs.foldl qmax x)

/-- Embedding of the start of `estimate_y`: if `hyper_parameters.max_x` is
`None` it is assigned `traces.max()` in place; this is the only write to
the hyper-parameters object in `estimate_y` (the rest of the function and
its callees only read it), so the returned object is the state of the
caller-owned object after `estimate_y` returns. -/
def resolveMaxX (traces : List (List ℚ)) (hp : HyperParameters) :
    Option HyperParameters :=
  match hp.max_x with
  | some _ => some hp
  | none => (tracesMax traces).map (fun m => { hp with max_x := some m })

/-! ## Grid-search initializer (`blinx/estimate.py`,
`get_initial_parameter_guesses`)

The grid of parameter values is the `meshgrid(indexing='ij')` of the
seven per-range `linspace` tensors, reshaped to the multi-dimensional
shape `parameter_ranges.num_values()`; a grid point is addressed by a
multi-index (one entry per range) and its coordinate vector reads each
range's `linspace` at the corresponding entry.  The per-trace grid
log-likelihoods (computed by the out-of-scope `get_trace_log_likelihood`)
are an oracle `ll : ℕ → List ℕ → ℚ` (trace index → value at a
multi-index). -/

/-- All multi-indices of a multi-dimensional shape, in row-major order. -/
def allIndices : List ℕ → List (List ℕ)
  | [] => [[]]
  | n :: rest =>
      (List.range n).flatMap (fun i => (allIndices rest).map (fun tl => i :: tl))

/-- Chebyshev (hyper-cube) adjacency of two multi-indices within radius
`r`: every component differs by at most `r`. -/
def withinRadius (r : ℕ) : List ℕ → List ℕ → Bool
  | [], [] => true
  | a :: as, b :: bs =>
      (decide (a ≤ b + r) && decide (b ≤ a + r)) && withinRadius r as bs
  | _, _ => false

/-- Modelled from the spec: part of `find_local_maxima` (`blinx/utils.py`
is not in `src/`).  Following spec section 4.4, a grid point is a local
maximum when no point of its fixed-radius hyper-cube neighborhood has a
strictly greater value, and a fully flat neighborhood is not reported
unless the whole surface is constant. -/
def isLocalMax (shape : List ℕ) (vals : List ℕ → ℚ) (radius : ℕ) (p : List ℕ) :
    Bool :=
  ((allIndices shape).all
    (fun q => !(withinRadius radius p q) || decide (vals q ≤ vals p))) &&
  (!((allIndices shape).all
      (fun q => !(withinRadius radius p q) || decide (vals q = vals p))) ||
    (allIndices shape).all (fun q => decide (vals q = vals (allIndices shape).headI)))

/-- The first multi-index attaining the global maximum — the "best-known
maximum" used for padding. -/
def argmaxIndex (shape : List ℕ) (vals : List ℕ → ℚ) : List ℕ :=
  match allIndices shape with
  | [] => []
  | p :: ps => ps.foldl (fun best q => if vals best < vals q then q else best) p

/-- Modelled from the spec: `find_local_maxima(log_likelihoods,
num_guesses)` (`blinx/utils.py` is not in `src/`).  Per spec section 4.4:
return the `num_guesses` highest-scoring local maxima's grid indices, and
when fewer local maxima exist, pad by repeating the best-known maximum
instead of failing. -/
def find_local_maxima (shape : List ℕ) (vals : List ℕ → ℚ)
    (radius num_guesses : ℕ) : List (List ℕ) :=
  let maxima := (allIndices shape).filter (isLocalMax shape vals radius)
  let sorted := maxima.mergeSort (fun p q => decide (vals q ≤ vals p))
  sorted.take num_guesses ++
    List.replicate (num_guesses - sorted.length) (argmaxIndex shape vals)

/-- The parameter coordinates of the grid point at a multi-index:
component `j` is the `j`-th range's grid tensor read at the multi-index's
`j`-th entry (the value `meshgrid(indexing='ij')` stores there). -/
def coordsAt (pr : ParameterRanges) (idx : List ℕ) : List ℚ :=
  (pr.ranges.zip idx).map
    (fun ri => (linspace ri.1.start ri.1.stop ri.1.step.toNat).getD ri.2 0)

/-- Embedding of the per-trace body of `get_initial_parameter_guesses`:
find the local-maxima indices of the trace's grid log-likelihoods and read
the parameter coordinates at each of them. -/
def guessesForTrace (pr : ParameterRanges) (num_guesses radius : ℕ)
    (ll : List ℕ → ℚ) : List (List ℚ) :=
  (find_local_maxima pr.shape ll radius num_guesses).map (coordsAt pr)

/-- Embedding of `get_initial_parameter_guesses`: the per-trace guess
lists, one per trace. -/
def get_initial_parameter_guesses (pr : ParameterRanges)
    (num_guesses radius num_traces : ℕ) (ll : ℕ → List ℕ → ℚ) :
    List (List (List ℚ)) :=
  (List.range num_traces).map
    (fun t => guessesForTrace pr num_guesses radius (ll t))

/-- A small concrete configuration used by the C5 witness: step counts
`(1,1,1,1,1,2,2)`, all ranges ordered. -/
def prW : ParameterRanges where
  r_e_range := ⟨0, 1, 1⟩
  r_bg_range := ⟨2, 2, 1⟩
  mu_ro_range := ⟨0, 1, 1⟩
  sigma_ro_range := ⟨1, 1, 1⟩
  gain_range := ⟨1, 3, 1⟩
  p_on_range := ⟨0, 1, 2⟩
  p_off_range := ⟨0, 1, 2⟩

/-! ## Spec-side selection (for comparison with the code's `argmin`)

The spec requires the post-loop selection to keep, per trace, the restart
with the *maximum* (positive-is-better) log-likelihood; the following two
definitions follow the spec's words and are compared against the code's
`argmin`-based `selectBest`. -/

/-- The first index of a maximal element — the selection index the spec
prescribes. -/
def argmaxSpec (l : List ℚ) : ℕ :=
  (l.enum.foldl (fun best cur => if best.2 < cur.2 then cur else best)
    (0, l.headD 0)).1

/-- The per-trace selection the spec prescribes: keep the restart with the
maximum log-likelihood and report its untransformed value. -/
def selectMaxSpec {α : Type} [Inhabited α] (params : List (List α)) (lls : Batch) :
    List α × List ℚ :=
  let picks := (lls.zip params).map (fun rp =>
    let i := argmaxSpec rp.1
    (rp.2.getD i default, rp.1.getD i 0))
  (picks.map Prod.fst, picks.map Prod.snd)

/-! ## Concrete inputs used by witnesses and counterexamples -/

/-- A small concrete hyper-parameter configuration: `epoch_length = 2`,
`is_done_window = 2`, `is_done_limit = 1/1000`. -/
def hpA : HyperParameters := ⟨1, none, 1, 2, 2, 1/1000⟩

/-- An optimizer-output sequence whose log-likelihood is constant `7`:
the convergence detector fires on it. -/
def llsConv : ℕ → Batch := fun _ => [[7]]

/-- An optimizer-output sequence jumping from `0` to `7`: within
`epoch_length = 2` the convergence detector never fires on it. -/
def llsNoConv : ℕ → Batch := fun i => if i = 0 then [[0]] else [[7]]

/-- A constant parameter sequence: one trace, one guess, parameter vector
`[10]`. -/
def psA : ℕ → List (List (List ℚ)) := fun _ => [[[10]]]

/-! ## Theorems -/

theorem qabs_eq_abs (q : ℚ) : qabs q = |q| := by
  unfold qabs
  rcases lt_or_le q 0 with h | h
  · rw [if_pos h, abs_of_neg h]
  · rw [if_neg (not_lt.mpr h), abs_of_nonneg h]

theorem linspace_one (a b : ℚ) : linspace a b 1 = [a] := rfl

/-- C10: a `Range` whose step count equals 1 produces the one-element grid
`[start]`, so the stop value appears in the grid only when it equals the
start; under the default `ParameterRanges` the `mu_ro` grid is `[1000]`
(from `(1000, 3000)`) and the gain grid is `[1]` (from `(1, 3)`). -/
theorem c10_step_one_grid_is_start :
    (∀ r : Blinx.Range, r.step = 1 →
      r.to_tensor = .ok [r.start] ∧ (r.stop ∈ [r.start] ↔ r.stop = r.start)) ∧
    defaultParameterRanges.mu_ro_range.to_tensor = .ok [1000] ∧
    defaultParameterRanges.gain_range.to_tensor = .ok [1] := by
  refine ⟨fun r h => ?_, rfl, rfl⟩
  have h0 : ¬ r.step < 0 := by omega
  have h1 : r.step.toNat = 1 := by omega
  constructor
  · simp [Range.to_tensor, h0, h1, linspace_one]
  · simp [List.mem_singleton]

/-- C10 witness: the first conjunct applied to the default `mu_ro` range. -/
theorem c10_step_one_grid_is_start_witness :
    (Blinx.Range.mk 1000 3000 1).to_tensor = .ok [1000] ∧
    ((1000 : ℚ) ∈ [(3000 : ℚ)] ↔ (3000 : ℚ) = 1000) := by
  have h := c10_step_one_grid_is_start.1 ⟨1000, 3000, 1⟩ rfl
  exact ⟨h.1, by decide⟩

/-- C6 counterexample: constructing `Range(5, 1, 0)` — start exceeds stop
and the step count is non-positive — raises no error: `Range.__init__`
returns the range with the fields stored unchanged, and even building the
grid tensor later succeeds (yielding an empty grid). -/
theorem c6_counterexample_no_validation :
    Range.make 5 1 0 = .ok ⟨5, 1, 0⟩ ∧
    (Range.mk 5 1 0).to_tensor = .ok [] := by
  constructor
  · rfl
  · rfl

/-- C6 (amended): constructing a parameter range performs no validation at
all — any start/stop/step combination, including start > stop and a
non-positive step count, is accepted and stored unchanged, and no error is
raised at construction time (a malformed grid only surfaces later, when
the grid tensor is built: a negative step count fails there, a zero step
count silently yields an empty grid). -/
theorem c6_construction_never_fails (start stop' : ℚ) (step : ℤ) :
    Range.make start stop' step = .ok ⟨start, stop', step⟩ ∧
    (step < 0 → (Range.mk start stop' step).to_tensor =
      .error "ValueError: number of samples must be nonnegative") ∧
    (step = 0 → (Range.mk start stop' step).to_tensor = .ok []) := by
  refine ⟨rfl, fun h => ?_, fun h => ?_⟩
  · simp [Range.to_tensor, h]
  · subst h
    simp [Range.to_tensor, linspace]

/-- C6 witness: the amended statement at the malformed range `(5, 1, 0)`. -/
theorem c6_construction_never_fails_witness :
    Range.make 5 1 0 = .ok ⟨5, 1, 0⟩ ∧
    ((0 : ℤ) < 0 → (Range.mk 5 1 0).to_tensor =
      .error "ValueError: number of samples must be nonnegative") ∧
    ((0 : ℤ) = 0 → (Range.mk 5 1 0).to_tensor = .ok []) :=
  c6_construction_never_fails 5 1 0

/-- C3: whenever the ratio `mean_delta / mean_values` evaluates to NaN
(for example when every log-likelihood in the history is exactly 0, making
both means zero), `is_done` returns `true` — the NaN is a normal stop
signal, not an error (the embedded function is total). -/
theorem c3_nan_ratio_stops (window : ℕ) (limit : ℚ) (history : List Batch)
    (hlen : window ≤ history.length)
    (hnan : percentImprove history = .nan) :
    is_done window limit history = true := by
  unfold is_done
  have h : ¬ history.length < window := not_lt.mpr hlen
  simp only [h, if_false, hnan]
  rfl

/-- C3 witness: a window-2 history of two batches whose log-likelihoods
are all exactly 0 has a NaN ratio and is reported as converged. -/
theorem c3_nan_ratio_stops_witness :
    (2 : ℕ) ≤ ([[[0, 0]], [[0, 0]]] : List Batch).length ∧
    percentImprove [[[0, 0]], [[0, 0]]] = .nan ∧
    is_done 2 (1/1000) [[[0, 0]], [[0, 0]]] = true :=
  ⟨by decide,
   by norm_num [percentImprove, meanFV, absFV, divFV, qabs, historyDiffs, batchDiff],
   c3_nan_ratio_stops 2 (1/1000) [[[0, 0]], [[0, 0]]] (by decide)
     (by norm_num [percentImprove, meanFV, absFV, divFV, qabs, historyDiffs, batchDiff])⟩

/-- C4 (amended): the refinement loop of `estimate_parameters` executes at
most `epoch_length` iterations, and it stops before exhausting the cap
only when the convergence detector fires on the history of the last
executed iteration.  (The gradient loop of `optimize_params` in
`promap/fit.py`, in contrast, carries no iteration cap at all — see the
counterexample.) -/
theorem c4_estimate_loop_capped (hp : HyperParameters) (lls : ℕ → Batch) :
    itersRun hp lls ≤ hp.epoch_length ∧
    (itersRun hp lls < hp.epoch_length →
      is_done hp.is_done_window hp.is_done_limit
        (histAt lls hp.is_done_window (itersRun hp lls - 1)) = true) := by
  unfold itersRun
  cases hfind : (List.range hp.epoch_length).find?
      (fun i => is_done hp.is_done_window hp.is_done_limit
        (histAt lls hp.is_done_window i)) with
  | none => exact ⟨le_refl _, fun h => absurd h (lt_irrefl _)⟩
  | some i =>
      have hi : i < hp.epoch_length :=
        List.mem_range.mp (List.mem_of_find?_eq_some hfind)
      have hpi := List.find?_some hfind
      refine ⟨?_, fun _ => ?_⟩
      · show i + 1 ≤ hp.epoch_length
        omega
      · show is_done hp.is_done_window hp.is_done_limit
          (histAt lls hp.is_done_window (i + 1 - 1)) = true
        simpa using hpi

/-- C4 witness: the amended statement at the concrete configuration `hpA`
and the constant log-likelihood sequence `llsConv`. -/
theorem c4_estimate_loop_capped_witness :
    itersRun hpA llsConv ≤ hpA.epoch_length ∧
    (itersRun hpA llsConv < hpA.epoch_length →
      is_done hpA.is_done_window hpA.is_done_limit
        (histAt llsConv hpA.is_done_window (itersRun hpA llsConv - 1)) = true) :=
  c4_estimate_loop_capped hpA llsConv

/-- C4 counterexample: the `while diff > 1e-4` loop of
`optimize_params` (`promap/fit.py`) has no iteration cap: on a likelihood
sequence that keeps changing by `1` each iteration, the loop has not
stopped within its first `n` iterations, for any `n` whatsoever. -/
theorem c4_counterexample_promap_unbounded :
    ¬ ∃ n : ℕ, promapStopsWithin (fun i => (i : ℚ) + 2) n = true := by
  rintro ⟨n, h⟩
  rw [promapStopsWithin, List.any_eq_true] at h
  obtain ⟨i, _, hpi⟩ := h
  have hle : qabs ((i : ℚ) + 2 - promapOld (fun i => (i : ℚ) + 2) i) ≤ 1/10000 :=
    of_decide_eq_true hpi
  have h1 : ((i : ℚ) + 2 - promapOld (fun i => (i : ℚ) + 2) i) = 1 := by
    unfold promapOld
    rcases Nat.eq_zero_or_pos i with h0 | h0
    · subst h0; norm_num
    · rw [if_neg (by omega)]
      show (i : ℚ) + 2 - (((i - 1 : ℕ) : ℚ) + 2) = 1
      have hc : ((i - 1 : ℕ) : ℚ) = (i : ℚ) - 1 := by
        rw [Nat.cast_sub (by omega : 1 ≤ i)]
        norm_num
      rw [hc]; ring
  rw [h1] at hle
  norm_num [qabs] at hle

/-- C7 (amended): whether or not the run converged, `estimate_parameters`
returns normally (no exception) with the per-trace selection taken from
the final executed iteration — one selected log-likelihood per trace, so
nothing is truncated; but the return value is only that pair and carries
no iteration/convergence flag. -/
theorem c7_returns_without_flag {α : Type} [Inhabited α]
    (hp : HyperParameters) (lls : ℕ → Batch) (ps : ℕ → List (List α))
    (hep : 1 ≤ hp.epoch_length)
    (hlen : (ps (itersRun hp lls - 1)).length = (lls (itersRun hp lls - 1)).length) :
    estimate_parameters hp lls ps =
      some (selectBest (ps (itersRun hp lls - 1)) (lls (itersRun hp lls - 1))) ∧
    (selectBest (ps (itersRun hp lls - 1)) (lls (itersRun hp lls - 1))).2.length =
      (lls (itersRun hp lls - 1)).length := by
  have hpos : 1 ≤ itersRun hp lls := by
    unfold itersRun
    cases hfind : (List.range hp.epoch_length).find?
        (fun i => is_done hp.is_done_window hp.is_done_limit
          (histAt lls hp.is_done_window i)) with
    | none => exact hep
    | some i =>
        show 1 ≤ i + 1
        omega
  constructor
  · unfold estimate_parameters
    rw [if_neg (by omega)]
  · unfold selectBest
    simp [List.length_zip, hlen]

/-- C7 witness: the amended statement at the concrete configuration `hpA`
with the constant sequences `llsConv` and `psA`. -/
theorem c7_returns_without_flag_witness :
    estimate_parameters hpA llsConv psA =
      some (selectBest (psA (itersRun hpA llsConv - 1))
        (llsConv (itersRun hpA llsConv - 1))) ∧
    (selectBest (psA (itersRun hpA llsConv - 1))
        (llsConv (itersRun hpA llsConv - 1))).2.length =
      (llsConv (itersRun hpA llsConv - 1)).length :=
  c7_returns_without_flag hpA llsConv psA (by decide) rfl

/-- C7 counterexample: with `epoch_length = 2` the sequence `llsNoConv`
never satisfies the convergence detector while `llsConv` does, yet
`estimate_parameters` returns the very same value for both — the claimed
iteration/convergence flag is not part of the return value, so the caller
cannot tell a converged run from an exhausted one. -/
theorem c7_counterexample_no_flag :
    earlyStop hpA llsNoConv = false ∧
    earlyStop hpA llsConv = true ∧
    estimate_parameters hpA llsNoConv psA = estimate_parameters hpA llsConv psA ∧
    estimate_parameters hpA llsNoConv psA = some ([[10]], [7]) := by
  have hr : List.range 2 = [0, 1] := rfl
  have hn0 : histAt llsNoConv 2 0 = [[[0]]] := rfl
  have hn1 : histAt llsNoConv 2 1 = [[[0]], [[7]]] := rfl
  have hc0 : histAt llsConv 2 0 = [[[7]]] := rfl
  have hc1 : histAt llsConv 2 1 = [[[7]], [[7]]] := rfl
  have en0 : is_done 2 (1/1000) (histAt llsNoConv 2 0) = false := by
    rw [hn0]
    rfl
  have en1 : is_done 2 (1/1000) (histAt llsNoConv 2 1) = false := by
    rw [hn1]
    norm_num [is_done, percentImprove, meanFV, absFV, divFV, ltFV, isnanFV,
      qabs, historyDiffs, batchDiff]
  have ec0 : is_done 2 (1/1000) (histAt llsConv 2 0) = false := by
    rw [hc0]
    rfl
  have ec1 : is_done 2 (1/1000) (histAt llsConv 2 1) = true := by
    rw [hc1]
    norm_num [is_done, percentImprove, meanFV, absFV, divFV, ltFV, isnanFV,
      qabs, historyDiffs, batchDiff]
  have in' : itersRun hpA llsNoConv = 2 := by
    unfold itersRun
    have h1 : (List.range hpA.epoch_length).find?
        (fun i => is_done hpA.is_done_window hpA.is_done_limit
          (histAt llsNoConv hpA.is_done_window i)) = none := by
      rw [List.find?_eq_none]
      intro x hx
      have hx2 : x < 2 := List.mem_range.mp hx
      interval_cases x
      · show ¬ is_done 2 (1/1000) (histAt llsNoConv 2 0) = true
        rw [en0]
        exact Bool.false_ne_true
      · show ¬ is_done 2 (1/1000) (histAt llsNoConv 2 1) = true
        rw [en1]
        exact Bool.false_ne_true
    rw [h1]
    rfl
  have ic : itersRun hpA llsConv = 2 := by
    unfold itersRun
    have h1 : (List.range hpA.epoch_length).find?
        (fun i => is_done hpA.is_done_window hpA.is_done_limit
          (histAt llsConv hpA.is_done_window i)) = some 1 := by
      show (List.range 2).find?
        (fun i => is_done 2 (1/1000) (histAt llsConv 2 i)) = some 1
      rw [hr]
      rw [List.find?_cons_of_neg _ (by rw [ec0]; exact Bool.false_ne_true)]
      rw [List.find?_cons_of_pos _ (by rw [ec1])]
    rw [h1]
  have hsel : selectBest (psA 1) [[(7 : ℚ)]] = ([[10]], [7]) := by
    norm_num [psA, selectBest, argmin, List.enum, List.enumFrom]
  refine ⟨?_, ?_, ?_, ?_⟩
  · show ((List.range 2).any
      (fun i => is_done 2 (1/1000) (histAt llsNoConv 2 i))) = false
    rw [hr]
    show (is_done 2 (1/1000) (histAt llsNoConv 2 0) ||
      (is_done 2 (1/1000) (histAt llsNoConv 2 1) || false)) = false
    rw [en0, en1]
    rfl
  · show ((List.range 2).any
      (fun i => is_done 2 (1/1000) (histAt llsConv 2 i))) = true
    rw [hr]
    show (is_done 2 (1/1000) (histAt llsConv 2 0) ||
      (is_done 2 (1/1000) (histAt llsConv 2 1) || false)) = true
    rw [ec0, ec1]
    rfl
  · unfold estimate_parameters
    rw [in', ic]
    rfl
  · unfold estimate_parameters
    rw [in']
    show some (selectBest (psA 1) [[(7 : ℚ)]]) = some ([[10]], [7])
    rw [hsel]

/-- C1: evaluation of the post-loop selection at the failing input.  With
one trace and two restarts whose (positive-is-better) log-likelihoods are
`[0, 1]` and parameter vectors `[10]` and `[20]`, the code's
`argmin`-based selection keeps restart 0 with log-likelihood `0`, while
the selection the spec and the function's own docstring describe (the
maximum) keeps restart 1 with log-likelihood `1`. -/
theorem c1_selection_takes_minimum :
    selectBest [[([10] : List ℚ), [20]]] [[0, 1]] = ([[10]], [0]) ∧
    selectMaxSpec [[([10] : List ℚ), [20]]] [[0, 1]] = ([[20]], [1]) := by
  constructor
  · norm_num [selectBest, argmin, List.enum, List.enumFrom]
  · norm_num [selectMaxSpec, argmaxSpec, List.enum, List.enumFrom]
    exact ⟨rfl, rfl⟩

theorem mem_sliceCells (w i j k di dj dk : ℕ)
    (hdi : di < 2*w) (hdj : dj < 2*w) (hdk : dk < 2*w) :
    (i - w + di, j - w + dj, k - w + dk) ∈ sliceCells w i j k := by
  unfold sliceCells
  simp only [List.mem_flatMap, List.mem_map, List.mem_range]
  exact ⟨di, hdi, dj, hdj, dk, hdk, rfl⟩

theorem flatWindow_all (v : ℕ → ℕ → ℕ → ℚ) (w i j k : ℕ)
    (hflat : flatWindow v w i j k = true) :
    ∀ c ∈ sliceCells w i j k, v c.1 c.2.1 c.2.2 = v i j k := by
  intro c hc
  unfold flatWindow at hflat
  rw [List.all_eq_true] at hflat
  have := hflat (v c.1 c.2.1 c.2.2) (by
    unfold sliceVals
    exact List.mem_map_of_mem _ hc)
  exact of_decide_eq_true this

/-- C2 (amended): in the scanned interior, a grid point whose fixed-radius
window is completely flat is reported as a local minimum exactly when the
common value equals `0` (the flat-window sentinel).  This theorem proves
the non-reporting direction: a flat window with a nonzero common value is
never reported, whatever the rest of the surface looks like.  (The
counterexample shows the zero-valued plateau that *is* reported.) -/
theorem c2_flat_nonzero_window_not_reported
    (v : ℕ → ℕ → ℕ → ℚ) (w s0 s1 s2 i j k : ℕ)
    (hw : 1 ≤ w)
    (hi : w ≤ i) (hi2 : i < s0 - w) (hj : w ≤ j) (hj2 : j < s0 - w)
    (hk : w ≤ k) (hk2 : k < s2 - w)
    (hflat : flatWindow v w i j k = true)
    (hv : v i j k ≠ 0) :
    a_pad v w s0 s2 i j k ≠ v i j k ∧
    (i, j, k) ∉ find_minima_3d v w s0 s1 s2 := by
  have hall := flatWindow_all v w i j k hflat
  have hsame : allSameAxis0 v w i j k = true := by
    unfold allSameAxis0
    rw [List.all_eq_true]
    intro di hdi
    rw [List.all_eq_true]
    intro dj hdj
    rw [List.all_eq_true]
    intro dk hdk
    rw [List.mem_range] at hdi hdj hdk
    apply decide_eq_true
    have h1 := hall _ (mem_sliceCells w i j k di dj dk hdi hdj hdk)
    have h2 := hall _ (mem_sliceCells w i j k 0 dj dk (by omega) hdj hdk)
    simp only at h1 h2
    rw [h1]
    rw [show i - w + 0 = i - w by omega] at h2
    rw [h2]
  have hpad : a_pad v w s0 s2 i j k = 0 := by
    unfold a_pad
    rw [if_pos ⟨hi, hi2, hj, hj2, hk, hk2⟩]
    unfold scan_func
    rw [if_pos hsame]
  refine ⟨by rw [hpad]; exact fun h => hv h.symm, ?_⟩
  intro hmem
  unfold find_minima_3d at hmem
  have := List.of_mem_filter hmem
  simp only at this
  have heq := of_decide_eq_true this
  rw [hpad] at heq
  exact hv heq.symm

/-- C2 (amended) witness: on the surface that is `3` everywhere except a
`9` at `(2,2,2)`, the point `(1,1,1)` has a flat window with common value
`3 ≠ 0` and is not reported. -/
theorem c2_flat_nonzero_window_not_reported_witness :
    a_pad v3 1 3 3 1 1 1 ≠ v3 1 1 1 ∧
    (1, 1, 1) ∉ find_minima_3d v3 1 3 3 3 :=
  c2_flat_nonzero_window_not_reported v3 1 3 3 3 1 1 1
    (by decide) (by decide) (by decide) (by decide) (by decide)
    (by decide) (by decide) (by decide) (by decide)

/-- C2 counterexample: on the surface `v5` (value `5` at `(2,2,2)`, `0`
elsewhere) the point `(1,1,1)` has a completely flat window — every value
in its radius-1 slice is `0` — the surface is not constant, and yet the
point *is* reported by `_find_minima_3d`: the flat-window sentinel `0`
collides with the surface value `0`, so the claimed exclusion fails for a
plateau whose value equals `0`. -/
theorem c2_counterexample_zero_plateau :
    flatWindow v5 1 1 1 1 = true ∧
    constSurface v5 3 3 3 = false ∧
    (1, 1, 1) ∈ find_minima_3d v5 1 3 3 3 := by
  refine ⟨by decide, by decide, by decide⟩

/-- C8: in each iteration of the `optimize_params` loop, `p_on`, `p_off`
(and `sigma`) receive the Adam updates, while `mu` receives only the SGD
update `-mu_lr * grads[2]` with its own learning rate `mu_lr`; the Adam
update computed for `mu` is discarded and never applied to `mu`. -/
theorem c8_mu_updated_by_sgd_only {S : Type}
    (likelihood_grad : ℚ × ℚ × ℚ × ℚ → ℚ × (ℚ × ℚ × ℚ × ℚ))
    (adam_update : (ℚ × ℚ × ℚ × ℚ) → S → (ℚ × ℚ × ℚ × ℚ) × S)
    (mu_lr p_on p_off mu sigma : ℚ) (s : S) :
    (fitIteration likelihood_grad adam_update mu_lr p_on p_off mu sigma s).1 =
      (p_on + ((adam_update (likelihood_grad (p_on, p_off, mu, sigma)).2 s).1).1,
       p_off + ((adam_update (likelihood_grad (p_on, p_off, mu, sigma)).2 s).1).2.1,
       mu - mu_lr * ((likelihood_grad (p_on, p_off, mu, sigma)).2).2.2.1,
       sigma + ((adam_update (likelihood_grad (p_on, p_off, mu, sigma)).2 s).1).2.2.2) := by
  unfold fitIteration sgd_update apply_update
  simp only [Prod.mk.injEq]
  exact ⟨trivial, trivial, by ring, trivial⟩

theorem qmax_le_left (a b : ℚ) : a ≤ qmax a b := by
  unfold qmax
  split
  · assumption
  · exact le_refl a

theorem qmax_le_right (a b : ℚ) : b ≤ qmax a b := by
  unfold qmax
  split
  · exact le_refl b
  · exact le_of_lt (lt_of_not_le (by assumption))

theorem qmax_eq_or (a b : ℚ) : qmax a b = a ∨ qmax a b = b := by
  unfold qmax
  split
  · exact Or.inr rfl
  · exact Or.inl rfl

theorem foldl_qmax_le (xs : List ℚ) : ∀ (x : ℚ), ∀ v ∈ x :: xs, v ≤ xs.foldl qmax x := by
  induction xs with
  | nil =>
      intro x v hv
      rw [List.mem_singleton] at hv
      subst hv
      exact le_refl v
  | cons y ys ih =>
      intro x v hv
      show v ≤ ys.foldl qmax (qmax x y)
      rcases List.mem_cons.mp hv with h | hv2
      · subst h
        exact le_trans (qmax_le_left v y)
          (ih (qmax v y) (qmax v y) (List.mem_cons_self _ _))
      · rcases List.mem_cons.mp hv2 with h | h
        · subst h
          exact le_trans (qmax_le_right x v)
            (ih (qmax x v) (qmax x v) (List.mem_cons_self _ _))
        · exact ih (qmax x y) v (List.mem_cons_of_mem _ h)

theorem foldl_qmax_mem (xs : List ℚ) : ∀ (x : ℚ), xs.foldl qmax x ∈ x :: xs := by
  induction xs with
  | nil =>
      intro x
      exact List.mem_singleton.mpr rfl
  | cons y ys ih =>
      intro x
      show ys.foldl qmax (qmax x y) ∈ x :: y :: ys
      have h := ih (qmax x y)
      rcases List.mem_cons.mp h with h1 | h1

      · rcases qmax_eq_or x y with h2 | h2
        · rw [h1, h2]
          exact List.mem_cons_self _ _
        · rw [h1, h2]
          exact List.mem_cons_of_mem _ (List.mem_cons_self _ _)
      · exact List.mem_cons_of_mem _ (List.mem_cons_of_mem _ h1)

/-- C9: when `estimate_y` is called with `max_x` unset (`None`), the
caller-owned hyper-parameters object is mutated in place: afterwards its
`max_x` equals the maximum intensity over all traces (an element of the
traces that bounds every entry), and every other field is unchanged. -/
theorem c9_max_x_mutated_in_place (traces : List (List ℚ)) (hp : HyperParameters)
    (hnone : hp.max_x = none) (x : ℚ) (xs : List ℚ)
    (hne : traces.flatten = x :: xs) :
    resolveMaxX traces hp =
      some { hp with max_x := some (xs.foldl qmax x) } ∧
    xs.foldl qmax x ∈ traces.flatten ∧
    (∀ v ∈ traces.flatten, v ≤ xs.foldl qmax x) ∧
    ({ hp with max_x := some (xs.foldl qmax x) } : HyperParameters).min_y = hp.min_y ∧
    ({ hp with max_x := some (xs.foldl qmax x) } : HyperParameters).num_guesses = hp.num_guesses ∧
    ({ hp with max_x := some (xs.foldl qmax x) } : HyperParameters).epoch_length = hp.epoch_length ∧
    ({ hp with max_x := some (xs.foldl qmax x) } : HyperParameters).is_done_window = hp.is_done_window ∧
    ({ hp with max_x := some (xs.foldl qmax x) } : HyperParameters).is_done_limit = hp.is_done_limit := by
  refine ⟨?_, ?_, ?_, rfl, rfl, rfl, rfl, rfl⟩
  · unfold resolveMaxX tracesMax
    rw [hnone, hne]
    rfl
  · rw [hne]
    exact foldl_qmax_mem xs x
  · rw [hne]
    exact foldl_qmax_le xs x

/-- C9 witness: with traces `[[3, 5], [2]]` and `hpA` (whose `max_x` is
unset), the returned object carries `max_x = some (max)` with all other
fields untouched. -/
theorem c9_max_x_mutated_in_place_witness :
    resolveMaxX [[3, 5], [2]] hpA =
      some { hpA with max_x := some ([5, 2].foldl qmax 3) } ∧
    [5, 2].foldl qmax 3 ∈ ([[3, 5], [2]] : List (List ℚ)).flatten ∧
    (∀ v ∈ ([[3, 5], [2]] : List (List ℚ)).flatten, v ≤ [5, 2].foldl qmax 3) ∧
    ({ hpA with max_x := some ([5, 2].foldl qmax 3) } : HyperParameters).min_y = hpA.min_y ∧
    ({ hpA with max_x := some ([5, 2].foldl qmax 3) } : HyperParameters).num_guesses = hpA.num_guesses ∧
    ({ hpA with max_x := some ([5, 2].foldl qmax 3) } : HyperParameters).epoch_length = hpA.epoch_length ∧
    ({ hpA with max_x := some ([5, 2].foldl qmax 3) } : HyperParameters).is_done_window = hpA.is_done_window ∧
    ({ hpA with max_x := some ([5, 2].foldl qmax 3) } : HyperParameters).is_done_limit = hpA.is_done_limit :=
  c9_max_x_mutated_in_place [[3, 5], [2]] hpA rfl 3 [5, 2] rfl

theorem mem_allIndices_iff : ∀ (shape idx : List ℕ),
    idx ∈ allIndices shape ↔ List.Forall₂ (fun i n => i < n) idx shape := by
  intro shape
  induction shape with
  | nil =>
      intro idx
      unfold allIndices
      simp only [List.mem_singleton]
      constructor
      · rintro rfl
        exact List.Forall₂.nil
      · intro h
        cases h
        rfl
  | cons n rest ih =>
      intro idx
      unfold allIndices
      simp only [List.mem_flatMap, List.mem_map, List.mem_range]
      constructor
      · rintro ⟨i, hi, tl, htl, rfl⟩
        exact List.Forall₂.cons hi ((ih tl).mp htl)
      · intro h
        cases h with
        | cons hab h' => exact ⟨_, hab, _, (ih _).mpr h', rfl⟩

theorem allIndices_exists_mem : ∀ (shape : List ℕ), (∀ n ∈ shape, 1 ≤ n) →
    ∃ idx, idx ∈ allIndices shape := by
  intro shape
  induction shape with
  | nil =>
      intro _
      exact ⟨[], by unfold allIndices; exact List.mem_singleton.mpr rfl⟩
  | cons n rest ih =>
      intro h
      obtain ⟨tl, htl⟩ := ih (fun m hm => h m (List.mem_cons_of_mem _ hm))
      refine ⟨0 :: tl, ?_⟩
      unfold allIndices
      simp only [List.mem_flatMap, List.mem_map, List.mem_range]
      exact ⟨0, h n (List.mem_cons_self _ _), tl, htl, rfl⟩

theorem foldl_choice_mem {α : Type} (pick : α → α → α)
    (hpick : ∀ a b, pick a b = a ∨ pick a b = b) :
    ∀ (ps : List α) (p : α), ps.foldl pick p ∈ p :: ps := by
  intro ps
  induction ps with
  | nil =>
      intro p
      exact List.mem_singleton.mpr rfl
  | cons q qs ih =>
      intro p
      show qs.foldl pick (pick p q) ∈ p :: q :: qs
      have h := ih (pick p q)
      rcases List.mem_cons.mp h with h1 | h1
      · rcases hpick p q with h2 | h2
        · rw [h1, h2]
          exact List.mem_cons_self _ _
        · rw [h1, h2]
          exact List.mem_cons_of_mem _ (List.mem_cons_self _ _)
      · exact List.mem_cons_of_mem _ (List.mem_cons_of_mem _ h1)

theorem argmaxIndex_mem (shape : List ℕ) (vals : List ℕ → ℚ)
    (hne : allIndices shape ≠ []) : argmaxIndex shape vals ∈ allIndices shape := by
  unfold argmaxIndex
  cases h : allIndices shape with
  | nil => exact absurd h hne
  | cons p ps =>
      exact foldl_choice_mem (fun best q => if vals best < vals q then q else best)
        (fun a b => by dsimp only; split; exacts [Or.inr rfl, Or.inl rfl]) ps p

theorem find_local_maxima_length (shape : List ℕ) (vals : List ℕ → ℚ)
    (radius k : ℕ) : (find_local_maxima shape vals radius k).length = k := by
  unfold find_local_maxima
  rw [List.length_append, List.length_take, List.length_replicate,
    List.length_mergeSort]
  omega

theorem find_local_maxima_mem (shape : List ℕ) (vals : List ℕ → ℚ)
    (radius k : ℕ) (hne : allIndices shape ≠ []) :
    ∀ p ∈ find_local_maxima shape vals radius k, p ∈ allIndices shape := by
  intro p hp
  unfold find_local_maxima at hp
  rcases List.mem_append.mp hp with h | h
  · have h2 := List.mem_of_mem_take h
    rw [List.mem_mergeSort] at h2
    exact List.mem_of_mem_filter h2
  · rw [List.eq_of_mem_replicate h]
    exact argmaxIndex_mem shape vals hne

theorem linspace_getD_bounds (a b : ℚ) (n i : ℕ) (hab : a ≤ b) (hi : i < n) :
    a ≤ (linspace a b n).getD i 0 ∧ (linspace a b n).getD i 0 ≤ b := by
  unfold linspace
  rcases Nat.eq_zero_or_pos n with h0 | _
  · subst h0
    exact absurd hi (Nat.not_lt_zero i)
  by_cases h1 : n = 1
  · subst h1
    have hiz : i = 0 := by omega
    subst hiz
    rw [if_neg (by omega), if_pos rfl]
    exact ⟨le_refl a, hab⟩
  · rw [if_neg (by omega), if_neg h1]
    have hgl : ((List.range n).map
        (fun (j : ℕ) => a + (b - a) * (j : ℚ) / ((n : ℚ) - 1))).getD i 0
        = a + (b - a) * (i : ℚ) / ((n : ℚ) - 1) := by
      rw [List.getD_eq_getElem?_getD, List.getElem?_map, List.getElem?_range hi]
      rfl
    rw [hgl]
    have hn2 : 2 ≤ n := by omega
    have hpos : (0 : ℚ) < (n : ℚ) - 1 := by
      have h2 : (2 : ℚ) ≤ (n : ℚ) := by exact_mod_cast hn2
      linarith
    have hba : (0 : ℚ) ≤ b - a := by linarith
    have hi' : (i : ℚ) ≤ (n : ℚ) - 1 := by
      have hc : (i : ℚ) + 1 ≤ (n : ℚ) := by exact_mod_cast hi
      linarith
    have hnn : (0 : ℚ) ≤ (b - a) * i / ((n : ℚ) - 1) :=
      div_nonneg (mul_nonneg hba (by positivity)) (le_of_lt hpos)
    constructor
    · linarith
    · have hub : (b - a) * i / ((n : ℚ) - 1) ≤ b - a := by
        rw [div_le_iff₀ hpos]
        have := mul_le_mul_of_nonneg_left hi' hba
        linarith
      linarith

theorem coordsAt_bounds : ∀ (rs : List Blinx.Range) (idx : List ℕ),
    (∀ r ∈ rs, r.start ≤ r.stop) →
    List.Forall₂ (fun i n => i < n) idx (rs.map (fun r => r.step.toNat)) →
    List.Forall₂ (fun r c => r.start ≤ c ∧ c ≤ r.stop) rs
      ((rs.zip idx).map
        (fun ri => (linspace ri.1.start ri.1.stop ri.1.step.toNat).getD ri.2 0)) := by
  intro rs
  induction rs with
  | nil =>
      intro idx _ _
      exact List.Forall₂.nil
  | cons r rs' ih =>
      intro idx hord hf
      cases idx with
      | nil => cases hf
      | cons i idx' =>
          cases hf with
          | cons hin hf' =>
              refine List.Forall₂.cons ?_
                (ih idx' (fun r' hr' => hord r' (List.mem_cons_of_mem _ hr')) hf')
              exact linspace_getD_bounds r.start r.stop r.step.toNat i
                (hord r (List.mem_cons_self _ _)) hin

/-- C5: for every trace and every grid log-likelihood surface, the
initializer returns exactly `num_guesses` parameter vectors per trace (the
spec-modelled `find_local_maxima` pads with the best-known maximum when
fewer local maxima exist, rather than failing or returning fewer), and
every returned coordinate lies within its configured parameter range. -/
theorem c5_initializer_count_and_bounds
    (pr : ParameterRanges) (num_guesses radius num_traces : ℕ)
    (ll : ℕ → List ℕ → ℚ)
    (hsteps : ∀ r ∈ pr.ranges, 1 ≤ r.step)
    (hord : ∀ r ∈ pr.ranges, r.start ≤ r.stop) :
    (get_initial_parameter_guesses pr num_guesses radius num_traces ll).length
      = num_traces ∧
    ∀ gs ∈ get_initial_parameter_guesses pr num_guesses radius num_traces ll,
      gs.length = num_guesses ∧
      ∀ g ∈ gs, List.Forall₂ (fun r c => r.start ≤ c ∧ c ≤ r.stop) pr.ranges g := by
  have hshape : pr.shape = pr.ranges.map (fun r => r.step.toNat) := rfl
  have hone : ∀ n ∈ pr.shape, 1 ≤ n := by
    rw [hshape]
    intro n hn
    rw [List.mem_map] at hn
    obtain ⟨r, hr, rfl⟩ := hn
    have := hsteps r hr
    omega
  have hne : allIndices pr.shape ≠ [] := by
    obtain ⟨idx, hidx⟩ := allIndices_exists_mem pr.shape hone
    exact List.ne_nil_of_mem hidx
  constructor
  · unfold get_initial_parameter_guesses
    rw [List.length_map, List.length_range]
  · intro gs hgs
    unfold get_initial_parameter_guesses at hgs
    rw [List.mem_map] at hgs
    obtain ⟨t, _, rfl⟩ := hgs
    constructor
    · unfold guessesForTrace
      rw [List.length_map, find_local_maxima_length]
    · intro g hg
      unfold guessesForTrace at hg
      rw [List.mem_map] at hg
      obtain ⟨idx, hidx, rfl⟩ := hg
      have hmem := find_local_maxima_mem pr.shape (ll t) radius num_guesses hne idx hidx
      have hf := (mem_allIndices_iff pr.shape idx).mp hmem
      rw [hshape] at hf
      exact coordsAt_bounds pr.ranges idx hord hf

/-- C5 witness: the concrete configuration `prW` with a constant surface,
three guesses and two traces. -/
theorem c5_initializer_count_and_bounds_witness :
    (get_initial_parameter_guesses prW 3 1 2 (fun _ _ => 0)).length = 2 ∧
    ∀ gs ∈ get_initial_parameter_guesses prW 3 1 2 (fun _ _ => 0),
      gs.length = 3 ∧
      ∀ g ∈ gs, List.Forall₂ (fun r c => r.start ≤ c ∧ c ≤ r.stop) prW.ranges g :=
  c5_initializer_count_and_bounds prW 3 1 2 (fun _ _ => 0) (by decide) (by decide)

end Blinx
